import Mathlib

/-!
Verification of the dev-cli service supervisor and log pipeline.

This file gives a shallow embedding, in Lean 4, of the parts of the
repository relevant to the frozen claims:

* `src/cli/src/shell/state.ts` — shell session state, the process
  lifecycle controller (start/stop/hydrate), the in-memory log buffer
  and scroll model, and the line sanitizer;
* `src/cli/src/utils/service-log-file.ts` — the log persistence writer
  (message normalization, level classification, retention pruning).

JavaScript strings are modelled as `List Char`; the regular-expression
replacements of the source are modelled as deterministic left-to-right
scanners (the character classes of each regex are pairwise disjoint, so
the JS backtracking regexes are equivalent to maximal-munch scanners).
Case folding is modelled for the ASCII range, which is the range the
repository's service identifiers, keywords and paths use.  Effectful
calls (spawn, kill, docker, process enumeration, the filesystem) are
modelled by explicit environment records passed as inputs, and the
functions return the actions they would have performed.
-/

namespace DevCli

/-- The escape character, code point 27. -/
def escChar : Char := Char.ofNat 27

/-- The bell character, code point 7, terminator of OSC sequences. -/
def belChar : Char := Char.ofNat 7

/-- CSI parameter bytes: the regex class of digits, semicolon and
question mark. -/
def isParamChar (c : Char) : Bool :=
  (('0' ≤ c && c ≤ '9') || c = ';' || c = '?')

/-- CSI intermediate bytes: the regex class from space to slash
(0x20 to 0x2f). -/
def isInterChar (c : Char) : Bool :=
  ' ' ≤ c && c ≤ '/'

/-- CSI final bytes: the regex class from at-sign to tilde
(0x40 to 0x7e). -/
def isFinalChar (c : Char) : Bool :=
  '@' ≤ c && c ≤ '~'

/-- JavaScript whitespace, as used by trim and trimEnd (ECMA WhiteSpace
plus LineTerminator). -/
def isJsWs (c : Char) : Bool :=
  c = ' ' || c = Char.ofNat 9 || c = Char.ofNat 10 || c = Char.ofNat 11 ||
  c = Char.ofNat 12 || c = Char.ofNat 13 || c = Char.ofNat 0xa0 ||
  c = Char.ofNat 0x1680 || (Char.ofNat 0x2000 ≤ c && c ≤ Char.ofNat 0x200a) ||
  c = Char.ofNat 0x2028 || c = Char.ofNat 0x2029 || c = Char.ofNat 0x202f ||
  c = Char.ofNat 0x205f || c = Char.ofNat 0x3000 || c = Char.ofNat 0xfeff

/-- JavaScript trimEnd, on character lists. -/
def jsTrimEnd (l : List Char) : List Char :=
  (l.reverse.dropWhile isJsWs).reverse

/-- JavaScript trimStart, on character lists. -/
def jsTrimStart (l : List Char) : List Char :=
  l.dropWhile isJsWs

/-- JavaScript trim, on character lists. -/
def jsTrim (l : List Char) : List Char :=
  jsTrimStart (jsTrimEnd l)

/-- The replacement that removes every carriage return (the first
replace of the source's stripControlSequences, and the carriage-return
removal inside normalizeMessage). -/
def removeCR (l : List Char) : List Char :=
  l.filter (fun c => c ≠ Char.ofNat 13)

/-- Parse the tail of an SGR escape sequence after the parameter bytes:
zero or more intermediate bytes followed by the final byte `m`.
Returns the number of characters consumed.  (`m` is not an intermediate
byte, so the greedy regex star is a deterministic maximal munch.) -/
def sgrAfterParams : List Char → Option Nat
  | [] => none
  | c :: rest =>
    if c = 'm' then some 1
    else if isInterChar c then (sgrAfterParams rest).map (· + 1)
    else none

/-- Parse the tail of an SGR escape sequence: parameter bytes, then
intermediates and the final `m`.  The parameter and intermediate
classes are disjoint and neither contains `m`, so this equals the JS
regex. -/
def sgrParams : List Char → Option Nat
  | [] => none
  | c :: rest =>
    if isParamChar c then (sgrParams rest).map (· + 1)
    else sgrAfterParams (c :: rest)

/-- Given the characters after an escape character, decide whether they
begin with the rest of an SGR sequence (open bracket, parameter bytes,
intermediate bytes, final `m`), and if so how many characters it
occupies. -/
def trySgr : List Char → Option Nat
  | '[' :: rest => (sgrParams rest).map (· + 1)
  | _ => none

/-- The source's stripAnsiSgr (present identically in shell/state.ts
and utils/service-log-file.ts): the replacement removing every SGR
escape sequence. -/
def sgrStrip : List Char → List Char
  | [] => []
  | c :: rest =>
    if c = escChar then
      match trySgr rest with
      | some n => sgrStrip (rest.drop n)
      | none => c :: sgrStrip rest
    else c :: sgrStrip rest
termination_by l => l.length
decreasing_by
  all_goals simp only [List.length_cons, List.length_drop]
  all_goals omega

/-- Parse the tail of a general CSI sequence after the escape and open
bracket: parameter bytes, intermediate bytes, and any final byte.
Returns the consumed length together with the final byte (the
replacement keeps the sequence exactly when the final byte is `m`). -/
def csiInter : List Char → Option (Nat × Char)
  | [] => none
  | c :: rest =>
    if isFinalChar c then some (1, c)
    else if isInterChar c then (csiInter rest).map (fun p => (p.1 + 1, p.2))
    else none

/-- Parameter-byte stage of the CSI parse; see `csiInter`. -/
def csiParams : List Char → Option (Nat × Char)
  | [] => none
  | c :: rest =>
    if isParamChar c then (csiParams rest).map (fun p => (p.1 + 1, p.2))
    else csiInter (c :: rest)

/-- Given the characters after an escape character, decide whether they
begin with the rest of a CSI sequence, returning its length and final
byte. -/
def tryCsi : List Char → Option (Nat × Char)
  | '[' :: rest => (csiParams rest).map (fun p => (p.1 + 1, p.2))
  | _ => none

/-- The CSI replacement of stripControlSequences: every CSI sequence
whose final byte is not `m` is dropped, SGR sequences (final byte `m`)
are kept verbatim. -/
def csiStrip : List Char → List Char
  | [] => []
  | c :: rest =>
    if c = escChar then
      match tryCsi rest with
      | some (n, fin) =>
        if fin = 'm' then (c :: rest.take n) ++ csiStrip (rest.drop n)
        else csiStrip (rest.drop n)
      | none => c :: csiStrip rest
    else c :: csiStrip rest
termination_by l => l.length
decreasing_by
  all_goals simp only [List.length_cons, List.length_drop]
  all_goals omega

/-- Index (from the start of the list) just after the first bell
character, if any: the extent of the OSC terminator alternative BEL. -/
def findBel (l : List Char) : Option Nat :=
  match l with
  | [] => none
  | c :: rest =>
    if c = belChar then some 1
    else (findBel rest).map (· + 1)

/-- Index just after the last occurrence of escape-backslash in the
list, if any: the greedy backtracking extent of the OSC terminator
alternative ESC backslash. -/
def findLastStEnd (l : List Char) : Option Nat :=
  match l with
  | [] => none
  | c :: rest =>
    match findLastStEnd rest with
    | some n => some (n + 1)
    | none =>
      if c = escChar then
        match rest with
        | '\\' :: _ => some 2
        | _ => none
      else none

/-- Given the characters after the escape and closing-bracket opener of
an OSC sequence, the number of characters the OSC regex consumes there:
up to and including the first bell if one exists (the starred class
cannot cross a bell), otherwise up to and including the last
escape-backslash (greedy backtracking), otherwise no match. -/
def tryOscBody (l : List Char) : Option Nat :=
  match findBel l with
  | some n => some n
  | none => findLastStEnd l

/-- The OSC replacement of stripControlSequences: remove operating
system command sequences (escape, right bracket, body, terminator). -/
def oscStrip : List Char → List Char
  | [] => []
  | [c] => [c]
  | c1 :: c2 :: rest =>
    if c1 = escChar && c2 = ']' then
      match tryOscBody rest with
      | some n => oscStrip (rest.drop n)
      | none => c1 :: oscStrip (c2 :: rest)
    else c1 :: oscStrip (c2 :: rest)
termination_by l => l.length
decreasing_by
  all_goals simp only [List.length_cons, List.length_drop]
  all_goals omega

/-- The lone-escape replacement of stripControlSequences: remove every
escape character that does not begin an SGR sequence (a negative
lookahead in the source). -/
def escStrip : List Char → List Char
  | [] => []
  | c :: rest =>
    if c = escChar then
      match trySgr rest with
      | some _ => c :: escStrip rest
      | none => escStrip rest
    else c :: escStrip rest

/-- The final character class removed by stripControlSequences: C0
control characters except tab, line feed and carriage return, plus
delete. -/
def isStrippedC0 (c : Char) : Bool :=
  (c.toNat ≤ 8) || c.toNat = 11 || c.toNat = 12 ||
  (14 ≤ c.toNat && c.toNat ≤ 31) || c.toNat = 127

/-- The control-character replacement of stripControlSequences. -/
def c0Strip (l : List Char) : List Char :=
  l.filter (fun c => !isStrippedC0 c)

/-- The source's stripControlSequences (shell/state.ts): the five
chained replacements. -/
def stripControlSequences (l : List Char) : List Char :=
  c0Strip (escStrip (csiStrip (oscStrip (removeCR l))))

/-- The source's sanitizeLogLine (shell/state.ts): strip control
sequences, trim the end; if the SGR-free, fully trimmed residue is
empty the line becomes the literal placeholder, otherwise the cleaned
line (with its SGR codes) is kept. -/
def sanitizeLogLine (l : List Char) : List Char :=
  let clean := jsTrimEnd (stripControlSequences l)
  let visible := jsTrim (sgrStrip clean)
  if visible.isEmpty then "(blank)".data else clean

/-- The source's normalizeMessage (utils/service-log-file.ts): strip
SGR codes and carriage returns, trim the end, substitute the
placeholder for an empty result. -/
def normalizeMessage (l : List Char) : List Char :=
  let plainLine := jsTrimEnd (removeCR (sgrStrip l))
  if plainLine.length > 0 then plainLine else "(blank)".data

/-- The `msg` field of the PersistedLogEntry obtained by capturing a
raw line (sanitizeLogLine in the stream reader) and then persisting it
(normalizeMessage in appendServiceLogLine). -/
def roundTripMsg (raw : List Char) : List Char :=
  normalizeMessage (sanitizeLogLine raw)

/-- The input exhibiting the divergence for claim C6: a line with two
SGR sequences around the word red and trailing spaces. -/
def c6FailingInput : List Char :=
  escChar :: '[' :: '3' :: '1' :: 'm' :: 'r' :: 'e' :: 'd' ::
    escChar :: '[' :: '0' :: 'm' :: ' ' :: ' ' :: []

/-! ## Basic data model (src/cli/src/types.ts) -/

/-- The four configured services (type ServiceName in types.ts). -/
inductive ServiceName
  | api
  | sasa
  | frontend
  | waha
deriving DecidableEq, Repr

/-- A run target: a single service or the group `all`. -/
inductive RunTarget
  | one (s : ServiceName)
  | allServices
deriving DecidableEq, Repr

/-- The display string of a service name. -/
def serviceNameStr : ServiceName → String
  | .api => "api"
  | .sasa => "sasa"
  | .frontend => "frontend"
  | .waha => "waha"

/-- The fixed iteration order of services (serviceOrder in state.ts). -/
def serviceOrder : List ServiceName :=
  [ServiceName.api, ServiceName.sasa, ServiceName.frontend, ServiceName.waha]

/-- An output stream of a child process. -/
inductive StreamType
  | stdout
  | stderr
deriving DecidableEq, Repr

/-- A persisted log level (type ServiceLogLevel). -/
inductive ServiceLogLevel
  | info
  | warn
  | error
deriving DecidableEq, Repr

/-- A JavaScript number as the supervisor meets it: not-a-number, the
two infinities, or a finite value (modelled as a rational, which covers
every integer and fractional value the code manipulates). -/
inductive JSNum
  | nan
  | posInf
  | negInf
  | finite (q : ℚ)
deriving DecidableEq

/-- Number.isFinite. -/
def jsIsFinite : JSNum → Bool
  | .finite _ => true
  | _ => false

/-- The JavaScript comparison `v <= 0` (false on NaN). -/
def jsLeZero : JSNum → Bool
  | .finite q => decide (q ≤ 0)
  | .negInf => true
  | _ => false

/-- Display of a pid in a status message (used only inside messages;
pids in the repository are integers). -/
def jsNumStr : JSNum → String
  | .finite q => if q.den = 1 then toString q.num else toString q
  | .nan => "NaN"
  | .posInf => "Infinity"
  | .negInf => "-Infinity"

/-- A service configuration (type ServiceConfig): the fields the
embedded functions consult. -/
structure ServiceConfig where
  command : String
  cwd : List Char
  dockerContainerId : Option String

/-- A RunningService entry (type BackgroundService): the source uses an
optional-field object; `hasChild` models the presence of the child
handle and `external` the external flag (absent meaning false). -/
structure BackgroundService where
  pid : JSNum
  external : Bool
  hasChild : Bool
deriving DecidableEq

/-- An in-memory log entry (type ServiceLogEntry). -/
structure ServiceLogEntry where
  service : ServiceName
  stream : StreamType
  line : List Char
  timestamp : Int
deriving DecidableEq

/-- The log view mode. -/
inductive LogView
  | off
  | all
  | one (s : ServiceName)
deriving DecidableEq, Repr

/-- The shell session state (type ShellState), restricted to the fields
the embedded functions read or write.  The onChange callback is pure
notification and is not modelled. -/
structure ShellState where
  running : ServiceName → Option BackgroundService
  logs : List ServiceLogEntry
  logView : LogView
  logScrollOffset : ServiceName → Int
  splitLogFocus : ServiceName
  message : String

/-- Pointwise update of a function out of ServiceName (models mutation
of one key of a Map or record). -/
def updF {α : Type} (f : ServiceName → α) (n : ServiceName) (v : α) : ServiceName → α :=
  fun m => if m = n then v else f m

/-- The in-memory ring buffer bound (maxShellLogLines). -/
def maxShellLogLines : Nat := 1000

/-- createShellState. -/
def createShellState : ShellState :=
  { running := fun _ => none
    logs := []
    logView := .off
    logScrollOffset := fun _ => 0
    splitLogFocus := .api
    message := "" }

/-- setShellMessage / writeShellOutput: the state mutation performed
(the change notification and terminal write carry no state). -/
def writeShellOutput (st : ShellState) (m : String) : ShellState :=
  { st with message := m }

/-! ## Substring containment (JavaScript String.prototype.includes) -/

/-- Case-sensitive list prefix test. -/
def isPreCL : List Char → List Char → Bool
  | [], _ => true
  | _ :: _, [] => false
  | a :: as_, b :: bs => a = b && isPreCL as_ bs

/-- JavaScript String.prototype.includes: `containsCL pat hay` is true
when `pat` occurs contiguously inside `hay`. -/
def containsCL (pat : List Char) : List Char → Bool
  | [] => pat.isEmpty
  | c :: rest => isPreCL pat (c :: rest) || containsCL pat rest

/-! ## Log persistence writer (src/cli/src/utils/service-log-file.ts) -/

/-- defaultRetentionDays. -/
def defaultRetentionDays : Int := 7

/-- The source's sanitizeRetentionDays: `none` models an absent
argument (Number.isFinite(undefined) is false). -/
def sanitizeRetentionDays (value : Option JSNum) : Int :=
  match value with
  | some (.finite q) =>
    let numeric := ⌊q⌋
    if numeric < 1 then defaultRetentionDays
    else min numeric 365
  | _ => defaultRetentionDays

/-- ASCII lower-casing of one character (JavaScript toLowerCase on the
character range the repository uses). -/
def asciiLower (c : Char) : Char :=
  if 'A' ≤ c && c ≤ 'Z' then Char.ofNat (c.toNat + 32) else c

/-- The word-character class of the regex anchor backslash-b. -/
def isWordChar (c : Char) : Bool :=
  ('a' ≤ c && c ≤ 'z') || ('A' ≤ c && c ≤ 'Z') || ('0' ≤ c && c ≤ '9') || c = '_'

/-- Case-insensitive match of a (lowercase) keyword against the front
of the text, returning the remaining text on success. -/
def ciMatchRem : List Char → List Char → Option (List Char)
  | [], rest => some rest
  | _ :: _, [] => none
  | k :: ks, c :: cs => if asciiLower c = k then ciMatchRem ks cs else none

/-- The closing word boundary: end of input or a non-word character. -/
def boundaryAfter : List Char → Bool
  | [] => true
  | c :: _ => !isWordChar c

/-- Whether one keyword matches here with a closing word boundary. -/
def kwHereOk (k text : List Char) : Bool :=
  match ciMatchRem k text with
  | some rest => boundaryAfter rest
  | none => false

/-- The fixed advisory keyword set of warnKeywordsPattern. -/
def warnKeywords : List (List Char) :=
  ["warn".data, "warning".data, "retry".data, "deprecated".data,
    "slow".data, "throttle".data]

/-- Scanner for the warn-keyword regex (word-boundary, then one of the
keywords, then word-boundary, case-insensitive): `prevWord` records
whether the previous character was a word character (false at the start
of input). -/
def warnScan (prevWord : Bool) : List Char → Bool
  | [] => false
  | c :: rest =>
    ((!prevWord) && warnKeywords.any (fun k => kwHereOk k (c :: rest))) ||
      warnScan (isWordChar c) rest

/-- The test warnKeywordsPattern.test(message). -/
def warnKeywordsTest (message : List Char) : Bool :=
  warnScan false message

/-- The outcome of the externally supplied error-keyword pattern:
getErrorKeywordPattern() returns null or a pattern, modelled as an
optional predicate. -/
def errMatches (errorPattern : Option (List Char → Bool)) (message : List Char) : Bool :=
  match errorPattern with
  | some p => p message
  | none => false

/-- The source's resolveLogLevel. -/
def resolveLogLevel (errorPattern : Option (List Char → Bool))
    (stream : StreamType) (message : List Char) : ServiceLogLevel :=
  if stream = StreamType.stderr then .error
  else if errMatches errorPattern message then .error
  else if warnKeywordsTest message then .warn
  else .info

/-! ## Retention pruning (cleanupOldServiceLogFiles) -/

/-- A directory entry as readdirSync withFileTypes reports it. -/
structure DirEntry where
  name : String
  isFile : Bool
deriving DecidableEq, Repr

/-- ASCII digit test. -/
def isDigitCh (c : Char) : Bool :=
  '0' ≤ c && c ≤ '9'

/-- The shape of the capture group of the filename pattern: four
digits, dash, two digits, dash, two digits. -/
def dayShapeOk : List Char → Bool
  | [y1, y2, y3, y4, d1, m1, m2, d2, a1, a2] =>
    isDigitCh y1 && isDigitCh y2 && isDigitCh y3 && isDigitCh y4 &&
      d1 = '-' && isDigitCh m1 && isDigitCh m2 && d2 = '-' &&
      isDigitCh a1 && isDigitCh a2
  | _ => false

/-- Strip an exact prefix, returning the remainder. -/
def dropExact : List Char → List Char → Option (List Char)
  | [], l => some l
  | _ :: _, [] => none
  | a :: as_, b :: bs => if a = b then dropExact as_ bs else none

/-- The source's extractDayFromFileName: the anchored pattern
service, dash, capture of the day shape, then the .txt suffix.  (The
service identifier alphabet contains no regex metacharacter, so the
interpolated pattern is a literal match.) -/
def extractDayFromFileName (fileName service : String) : Option String :=
  match dropExact (service.data ++ ['-']) fileName.data with
  | none => none
  | some rest =>
    if rest.length = 14 && dayShapeOk (rest.take 10) && decide (rest.drop 10 = ".txt".data) then
      some (String.mk (rest.take 10))
    else none

/-- Decimal value of a digit list (used on the fixed-width fields of a
parsed day). -/
def digitsVal : List Char → Nat
  | [] => 0
  | c :: rest => (c.toNat - '0'.toNat) * 10 ^ rest.length + digitsVal rest

/-- Leap-year test (Gregorian). -/
def isLeapYear (y : Int) : Bool :=
  (y % 4 = 0 && y % 100 ≠ 0) || y % 400 = 0

/-- Days in a month. -/
def daysInMonth (y : Int) (m : Nat) : Nat :=
  if m = 1 || m = 3 || m = 5 || m = 7 || m = 8 || m = 10 || m = 12 then 31
  else if m = 4 || m = 6 || m = 9 || m = 11 then 30
  else if m = 2 then (if isLeapYear y then 29 else 28)
  else 0

/-- Days from the civil epoch 1970-01-01 (UTC) to the given calendar
date (the standard days-from-civil computation, with floor division). -/
def daysFromCivil (y : Int) (m d : Nat) : Int :=
  let y' : Int := if m ≤ 2 then y - 1 else y
  let era : Int := Int.fdiv y' 400
  let yoe : Int := y' - era * 400
  let mp : Int := (Int.ofNat m + 9) % 12
  let doy : Int := (153 * mp + 2) / 5 + Int.ofNat d - 1
  let doe : Int := yoe * 365 + yoe / 4 - yoe / 100 + doy
  era * 146097 + doe - 719468

/-- The source's parseDayToUtcDate, returning the UTC epoch-day number
of midnight of that day.  The Date constructor on an ISO string yields
a valid time exactly for calendar-valid dates; an out-of-range month or
day gives an invalid date, whose NaN time makes the retention
comparison false, which this model folds into `none` (the outcome — the
file is skipped — is identical). -/
def parseDayToUtcDate (day : String) : Option Int :=
  let l := day.data
  if dayShapeOk l then
    let y := digitsVal (l.take 4)
    let m := digitsVal ((l.drop 5).take 2)
    let d := digitsVal ((l.drop 8).take 2)
    if 1 ≤ m && m ≤ 12 && 1 ≤ d && d ≤ daysInMonth (Int.ofNat y) m then
      some (daysFromCivil (Int.ofNat y) m d)
    else none
  else none

/-- The visited-set key of a cleanup run (logs root, service, day). -/
def cleanupKey (root service day : String) : String :=
  root ++ ":" ++ service ++ ":" ++ day

/-- Whether one directory entry is pruned on a cleanup pass for `day`
with the given retention window. -/
def pruneFile (service day : String) (retentionDays : Int) (f : DirEntry) : Bool :=
  f.isFile &&
    (match extractDayFromFileName f.name service with
      | none => false
      | some fileDay =>
        match parseDayToUtcDate fileDay, parseDayToUtcDate day with
        | some fd, some td => decide (retentionDays ≤ td - fd)
        | _, _ => false)

/-- The source's cleanupOldServiceLogFiles.  The filesystem is an input
(directory existence and entries); the result is the new visited set
and the names of the files removed.  The day difference
Math.floor((today - file) / dayMs) on two UTC midnights is exactly the
difference of epoch-day numbers. -/
def cleanupOldServiceLogFiles (root : String) (state : List String)
    (dirExists : Bool) (files : List DirEntry)
    (service day : String) (retentionDays : Int) : List String × List String :=
  let stateKey := cleanupKey root service day
  if state.contains stateKey then (state, [])
  else
    let state' := stateKey :: state
    if !dirExists then (state', [])
    else (state', (files.filter (pruneFile service day retentionDays)).map DirEntry.name)

/-! ## Path normalization and adoption (state.ts) -/

/-- One step of Node's posix normalizeString segment resolution, with
the result kept as a reversed stack of segments. -/
def processSeg (allowAboveRoot : Bool) (res : List (List Char)) (seg : List Char) :
    List (List Char) :=
  if seg = [] || seg = ['.'] then res
  else if seg = ['.', '.'] then
    match res with
    | s :: rest => if s ≠ ['.', '.'] then rest
        else if allowAboveRoot then seg :: res else res
    | [] => if allowAboveRoot then [seg] else []
  else seg :: res

/-- Split a character list on slashes (yielding possibly empty
segments, as the separator-driven scan of normalizeString does). -/
def splitSlash : List Char → List (List Char)
  | [] => [[]]
  | c :: rest =>
    let tail := splitSlash rest
    if c = '/' then [] :: tail
    else match tail with
      | seg :: more => (c :: seg) :: more
      | [] => [[c]]

/-- Join segments with slashes. -/
def joinSlash : List (List Char) → List Char
  | [] => []
  | [seg] => seg
  | seg :: rest => seg ++ '/' :: joinSlash rest

/-- Node's path.normalize for the posix flavour (the platform family
the adoption heuristic runs on in this model): resolve dot and
dot-dot segments, collapse repeated slashes, preserve a trailing slash
and absoluteness. -/
def posixNormalize (p : List Char) : List Char :=
  if p = [] then ['.']
  else
    let isAbs := p.head? = some '/'
    let trailing := p.getLast? = some '/'
    let res := ((splitSlash p).foldl (processSeg (!isAbs)) []).reverse
    let body := joinSlash res
    if body = [] then
      if isAbs then ['/'] else if trailing then ['.', '/'] else ['.']
    else
      let body2 := if trailing then body ++ ['/'] else body
      if isAbs then '/' :: body2 else body2

/-- The source's normalizePathForMatch: path.normalize, backslashes to
slashes, lower-cased (ASCII model of toLowerCase). -/
def normalizePathForMatch (value : List Char) : List Char :=
  ((posixNormalize value).map (fun c => if c = '\\' then '/' else c)).map asciiLower

/-- A row of the enumerated OS process table (type ProcessSnapshot):
readProcessList already filtered rows to positive pids and nonempty
command lines; the full table is an input of the model (the source
obtains it by shelling out). -/
structure ProcessSnapshot where
  pid : Int
  commandLine : List Char
deriving DecidableEq, Repr

/-- The source's findRunningProcessByCwd, over a given process table:
the first process whose normalized command line contains the service's
normalized working directory as a substring. -/
def findRunningProcessByCwd (processes : List ProcessSnapshot)
    (service : ServiceConfig) : Option Int :=
  if processes.isEmpty then none
  else
    let cwdNorm := normalizePathForMatch service.cwd
    (processes.find? fun item =>
      containsCL cwdNorm (normalizePathForMatch item.commandLine)).map ProcessSnapshot.pid

/-- The source's hydrateRunningServices: for every configured service
without an entry, discover a live instance — by container inspection
for container-backed services (the inspection outcome is the input
`dockerPid`), by command-line matching otherwise — and record an
external RunningService on a positive pid. -/
def hydrateRunningServices (procTable : List ProcessSnapshot)
    (dockerPid : ServiceName → Option Int)
    (services : ServiceName → ServiceConfig) (st : ShellState) : ShellState :=
  serviceOrder.foldl
    (fun s name =>
      if (s.running name).isSome then s
      else
        let service := services name
        let pid : Option Int :=
          match service.dockerContainerId with
          | some _ => dockerPid name
          | none => findRunningProcessByCwd procTable service
        match pid with
        | none => s
        | some p =>
          if p ≤ 0 then s
          else { s with running :=
                  (updF s.running name
                    (some { pid := .finite p, external := true, hasChild := false })) })
    st

/-! ## Scroll model and in-memory buffer (state.ts) -/

/-- The source's scrollServiceLogs: clamp the moved offset into the
valid window and report whether it changed. -/
def scrollServiceLogs (st : ShellState) (serviceName : ServiceName)
    (delta : Int) (visibleLines : Int) : ShellState × Bool :=
  let entries := st.logs.filter (fun e => e.service = serviceName)
  let maxOffset : Int := max 0 ((entries.length : Int) - max 1 visibleLines)
  let current := st.logScrollOffset serviceName
  let next := min (max 0 (current + delta)) maxOffset
  if next = current then (st, false)
  else ({ st with logScrollOffset := updF st.logScrollOffset serviceName next }, true)

/-- The source's addLog, in-memory part (the persistence call
appendServiceLogLine is modelled separately): bump a nonzero scroll
offset of the entry's service, append the entry, cap the buffer. -/
def addLog (st : ShellState) (entry : ServiceLogEntry) : ShellState :=
  let off := st.logScrollOffset entry.service
  let offsets := if off > 0 then updF st.logScrollOffset entry.service (off + 1)
    else st.logScrollOffset
  let logs1 := st.logs ++ [entry]
  let logs2 := if logs1.length > maxShellLogLines
    then logs1.drop (logs1.length - maxShellLogLines) else logs1
  { st with logScrollOffset := offsets, logs := logs2 }

/-! ## Process lifecycle controller (state.ts) -/

/-- The synchronous outcome of the spawn call: a thrown error message,
or a child whose pid may be missing (undefined, modelled `none`) or
zero (both falsy in the source's check). -/
structure SpawnOutcome where
  err : Option String
  pid : Option Int

/-- The environment of one start attempt: the docker ensure outcome
(ensureDockerContainerRunning shells out) and the spawn outcome. -/
structure StartEnv where
  ensureDockerOk : Bool
  ensureDockerMsg : String
  spawn : SpawnOutcome

/-- The result of one start attempt, with the registry it leaves behind
and whether spawn was invoked at all. -/
structure StartResult where
  state : ShellState
  ok : Bool
  message : String
  spawned : Bool

/-- The part of startServiceInBackground after the already-running
check: docker ensure, spawn, pid check, registration. -/
def startFresh (env : StartEnv) (name : ServiceName) (service : ServiceConfig)
    (st : ShellState) : StartResult :=
  if service.dockerContainerId.isSome && !env.ensureDockerOk then
    { state := st, ok := false
      message := serviceNameStr name ++ " failed to start container: " ++ env.ensureDockerMsg
      spawned := false }
  else
    match env.spawn.err with
    | some msg =>
      { state := st, ok := false
        message := serviceNameStr name ++ " failed to spawn: " ++ msg
        spawned := true }
    | none =>
      match env.spawn.pid with
      | none =>
        { state := st, ok := false
          message := serviceNameStr name ++ " failed to start (" ++ service.command ++ ")"
          spawned := true }
      | some p =>
        if p = 0 then
          { state := st, ok := false
            message := serviceNameStr name ++ " failed to start (" ++ service.command ++ ")"
            spawned := true }
        else
          { state := { st with running :=
                (updF st.running name
                  (some { pid := .finite p, external := false, hasChild := true })) }
            ok := true
            message := serviceNameStr name ++ " started (" ++ toString p ++ ")"
            spawned := true }

/-- The source's startServiceInBackground: fail on an existing entry
unless it is external and the service is container-backed, in which
case the record is evicted and a fresh start proceeds. -/
def startServiceInBackground (env : StartEnv) (name : ServiceName)
    (service : ServiceConfig) (st : ShellState) : StartResult :=
  match st.running name with
  | some existing =>
    if existing.external && service.dockerContainerId.isSome then
      startFresh env name service { st with running := updF st.running name none }
    else
      { state := st, ok := false
        message := serviceNameStr name ++ " already running (" ++ jsNumStr existing.pid ++ ")"
        spawned := false }
  | none => startFresh env name service st

/-- The platform family. -/
inductive Platform
  | win32
  | posix
deriving DecidableEq, Repr

/-- A signal-delivery action the stop path performs. -/
inductive KillAction
  | sigterm (pid : JSNum)
  | taskkillTree (pid : JSNum)
  | terminateChild (pid : JSNum)
deriving DecidableEq

/-- The environment of one stop attempt: platform, the outcomes of the
process.kill and taskkill calls, and the docker container stop
outcome. -/
structure StopEnv where
  platform : Platform
  killOk : Bool
  taskkillStatusZero : Bool
  containerStopOk : Bool
  containerStopMsg : String

/-- The result of one stop attempt. -/
structure StopResult where
  state : ShellState
  ok : Bool
  message : String
  kills : List KillAction

/-- The source's stopExternalProcessByPid: reject a non-finite or
non-positive pid without any signal, otherwise deliver taskkill (tree,
forced) on win32 or SIGTERM on posix and report the call's success. -/
def stopExternalProcessByPid (env : StopEnv) (pid : JSNum) : Bool × List KillAction :=
  if !jsIsFinite pid || jsLeZero pid then (false, [])
  else
    match env.platform with
    | .win32 => (env.taskkillStatusZero, [.taskkillTree pid])
    | .posix => (env.killOk, [.sigterm pid])

/-- The source's stopServiceInBackground: the process part (external
pid kill, or managed deregister and terminate), then the docker
container part when the service is container-backed. -/
def stopServiceInBackground (env : StopEnv) (name : ServiceName)
    (st : ShellState) (service : Option ServiceConfig) : StopResult :=
  let running := st.running name
  let part : Bool × String × ShellState × List KillAction :=
    match running with
    | none => (false, serviceNameStr name ++ " is not running", st, [])
    | some r =>
      if r.external then
        let sk := stopExternalProcessByPid env r.pid
        if sk.1 then
          (true, serviceNameStr name ++ " external process stopping",
            { st with running := updF st.running name none }, sk.2)
        else
          (false, serviceNameStr name ++ " external process not found", st, sk.2)
      else
        let st' := { st with running := updF st.running name none }
        if r.hasChild then
          (true, serviceNameStr name ++ " stopping", st', [.terminateChild r.pid])
        else
          (false, serviceNameStr name ++ " is not running", st', [])
  let processStopped := part.1
  let processMessage := part.2.1
  let st1 := part.2.2.1
  let kills := part.2.2.2
  match service with
  | some svc =>
    if svc.dockerContainerId.isSome then
      if !processStopped && !env.containerStopOk then
        { state := st1, ok := false, message := serviceNameStr name ++ " is not running"
          kills := kills }
      else if processStopped && env.containerStopOk then
        { state := st1, ok := true
          message := serviceNameStr name ++ " stopping | container stopping", kills := kills }
      else if processStopped && !env.containerStopOk then
        { state := st1, ok := false
          message := serviceNameStr name ++ " stopping | container stop failed: " ++
            env.containerStopMsg
          kills := kills }
      else
        { state := st1, ok := true, message := serviceNameStr name ++ " container stopping"
          kills := kills }
    else
      { state := st1, ok := processStopped, message := processMessage, kills := kills }
  | none =>
    { state := st1, ok := processStopped, message := processMessage, kills := kills }

/-- Join strings with a separator (Array.prototype.join). -/
def joinSep (sep : String) : List String → String
  | [] => ""
  | [m] => m
  | m :: rest => m ++ sep ++ joinSep sep rest

/-- Run start attempts over a target list in order, threading the
state; every target is attempted whatever the earlier outcomes. -/
def runStarts (env : ServiceName → StartEnv) (services : ServiceName → ServiceConfig) :
    List ServiceName → ShellState → ShellState × List (ServiceName × Bool × String)
  | [], st => (st, [])
  | n :: rest, st =>
    let r := startServiceInBackground (env n) n (services n) st
    let tail := runStarts env services rest r.state
    (tail.1, (n, r.ok, r.message) :: tail.2)

/-- The source's startBackground: expand the target, attempt each
service, join the messages into the status line, return exit code 1
when any attempt failed and 0 otherwise. -/
def startBackground (target : RunTarget) (env : ServiceName → StartEnv)
    (services : ServiceName → ServiceConfig) (st : ShellState) : ShellState × Nat :=
  let targets := match target with
    | .allServices => serviceOrder
    | .one n => [n]
  let run := runStarts env services targets st
  let messages := run.2.map (fun r => r.2.2)
  let hasError := run.2.any (fun r => r.2.1 = false)
  (writeShellOutput run.1 (joinSep " | " messages), if hasError then 1 else 0)

/-- Run stop attempts over a target list in order. -/
def runStops (env : ServiceName → StopEnv) (services : ServiceName → ServiceConfig) :
    List ServiceName → ShellState → ShellState × List (ServiceName × Bool × String)
  | [], st => (st, [])
  | n :: rest, st =>
    let r := stopServiceInBackground (env n) n st (some (services n))
    let tail := runStops env services rest r.state
    (tail.1, (n, r.ok, r.message) :: tail.2)

/-- The source's stopBackground. -/
def stopBackground (target : RunTarget) (env : ServiceName → StopEnv)
    (services : ServiceName → ServiceConfig) (st : ShellState) : ShellState × Nat :=
  let targets := match target with
    | .allServices => serviceOrder
    | .one n => [n]
  let run := runStops env services targets st
  let messages := run.2.map (fun r => r.2.2)
  let hasError := run.2.any (fun r => r.2.1 = false)
  (writeShellOutput run.1 (joinSep " | " messages), if hasError then 1 else 0)

section SanitizerLemmas

lemma oscStrip_sublist (l : List Char) : List.Sublist (oscStrip l) l := by
  induction l using oscStrip.induct with
  | case1 => simp [oscStrip]
  | case2 c => simp [oscStrip]
  | case3 c1 c2 rest h n hn ih =>
    rw [oscStrip, if_pos h, hn]
    exact ((ih.trans (List.drop_sublist n rest)).cons c2).cons c1
  | case4 c1 c2 rest h hn ih =>
    rw [oscStrip, if_pos h, hn]
    exact ih.cons₂ c1
  | case5 c1 c2 rest h ih =>
    rw [oscStrip, if_neg (by simpa using h)]
    exact ih.cons₂ c1

lemma csiStrip_sublist (l : List Char) : List.Sublist (csiStrip l) l := by
  induction l using csiStrip.induct with
  | case1 => simp [csiStrip]
  | case2 rest n hn ih =>
    rw [csiStrip]
    simp only [if_pos rfl, hn, ite_true]
    have h2 : List.Sublist ((escChar :: rest.take n) ++ csiStrip (rest.drop n))
        ((escChar :: rest.take n) ++ rest.drop n) := ih.append_left _
    have h3 : (escChar :: rest.take n) ++ rest.drop n = escChar :: rest := by
      simp [List.take_append_drop]
    exact h3 ▸ h2
  | case3 rest n fin hn hm ih =>
    rw [csiStrip]
    simp only [if_pos rfl, hn, hm, ite_false]
    exact (ih.trans (List.drop_sublist n rest)).cons escChar
  | case4 rest hn ih =>
    rw [csiStrip]
    simp only [if_pos rfl, hn]
    exact ih.cons₂ escChar
  | case5 c rest h ih =>
    rw [csiStrip, if_neg h]
    exact ih.cons₂ c

lemma escStrip_sublist (l : List Char) : List.Sublist (escStrip l) l := by
  induction l with
  | nil => simp [escStrip]
  | cons c rest ih =>
    by_cases h : c = escChar
    · rw [escStrip, if_pos h]
      cases hn : trySgr rest with
      | some n => exact ih.cons₂ c
      | none => exact ih.cons c
    · rw [escStrip, if_neg h]
      exact ih.cons₂ c

lemma mem_c0Strip {c : Char} {l : List Char} (h : c ∈ c0Strip l) :
    c ∈ l ∧ isStrippedC0 c = false := by
  unfold c0Strip at h
  have := List.of_mem_filter h
  exact ⟨List.mem_of_mem_filter h, by simpa using this⟩

lemma esc_not_mem_stripControlSequences (l : List Char) :
    escChar ∉ stripControlSequences l := by
  intro h
  have := (mem_c0Strip h).2
  simp [isStrippedC0, escChar] at this

lemma cr_not_mem_stripControlSequences (l : List Char) :
    Char.ofNat 13 ∉ stripControlSequences l := by
  intro h
  have h1 : Char.ofNat 13 ∈ escStrip (csiStrip (oscStrip (removeCR l))) :=
    (mem_c0Strip h).1
  have h2 : Char.ofNat 13 ∈ removeCR l :=
    (oscStrip_sublist _).mem ((csiStrip_sublist _).mem ((escStrip_sublist _).mem h1))
  have := List.of_mem_filter h2
  simp at this

lemma mem_jsTrimEnd {c : Char} {l : List Char} (h : c ∈ jsTrimEnd l) : c ∈ l := by
  unfold jsTrimEnd at h
  rw [List.mem_reverse] at h
  have := (List.dropWhile_sublist (l := l.reverse) (p := isJsWs)).mem h
  rwa [List.mem_reverse] at this

lemma dropWhile_dropWhile (p : Char → Bool) (l : List Char) :
    (l.dropWhile p).dropWhile p = l.dropWhile p := by
  induction l with
  | nil => rfl
  | cons a l ih =>
    by_cases pa : p a = true
    · simp [List.dropWhile_cons, pa, ih]
    · simp [List.dropWhile_cons, pa]

lemma jsTrimEnd_idem (l : List Char) : jsTrimEnd (jsTrimEnd l) = jsTrimEnd l := by
  unfold jsTrimEnd
  rw [List.reverse_reverse, dropWhile_dropWhile]

lemma sgrStrip_of_no_esc {l : List Char} (h : escChar ∉ l) : sgrStrip l = l := by
  induction l with
  | nil => simp [sgrStrip]
  | cons c rest ih =>
    have hc : c ≠ escChar := by
      intro hc
      exact h (hc ▸ List.mem_cons_self c rest)
    rw [sgrStrip, if_neg hc, ih (fun hm => h (List.mem_cons_of_mem c hm))]

lemma removeCR_of_no_cr {l : List Char} (h : Char.ofNat 13 ∉ l) : removeCR l = l := by
  unfold removeCR
  refine List.filter_eq_self.mpr fun c hc => ?_
  simp only [ne_eq, decide_eq_true_eq]
  intro hcr
  exact h (hcr ▸ hc)

/-- The persistence-side normalization is the identity on every line
the capture-side sanitizer produces: the persisted `msg` equals the
captured line verbatim.  (stripControlSequences already removed every
escape character — the C0 class it ends with contains code point 27 —
so the SGR stripping inside normalizeMessage never fires.) -/
theorem roundTripMsg_eq_sanitizeLogLine (raw : List Char) :
    roundTripMsg raw = sanitizeLogLine raw := by
  have hesc : escChar ∉ jsTrimEnd (stripControlSequences raw) := fun h =>
    esc_not_mem_stripControlSequences raw (mem_jsTrimEnd h)
  have hcr : Char.ofNat 13 ∉ jsTrimEnd (stripControlSequences raw) := fun h =>
    cr_not_mem_stripControlSequences raw (mem_jsTrimEnd h)
  simp only [roundTripMsg, sanitizeLogLine, sgrStrip_of_no_esc hesc]
  by_cases hvis : (jsTrim (jsTrimEnd (stripControlSequences raw))).isEmpty = true
  · rw [if_pos hvis]
    have hb : escChar ∉ "(blank)".data := by decide
    simp only [normalizeMessage, sgrStrip_of_no_esc hb]
    decide
  · rw [if_neg hvis]
    have hne : jsTrimEnd (stripControlSequences raw) ≠ [] := by
      intro h0
      rw [jsTrim, jsTrimStart, h0] at hvis
      exact hvis rfl
    simp only [normalizeMessage]
    rw [sgrStrip_of_no_esc hesc, removeCR_of_no_cr hcr, jsTrimEnd_idem]
    have hlen : 0 < (jsTrimEnd (stripControlSequences raw)).length :=
      List.length_pos.mpr hne
    rw [if_pos hlen]

end SanitizerLemmas

/-- C6 (code bug): per the claim, the persisted `msg` for the input
ESC [31m red ESC [0m with trailing blanks should be exactly "red"
(carriage returns removed, control and escape sequences stripped with
SGR removed at the persistence stage, trailing whitespace trimmed).
The code instead persists "[31mred[0m": the final character class of
stripControlSequences includes code point 27, so it deletes the very
escape characters its CSI pass and negative lookahead deliberately
preserved, leaving the SGR bodies as literal text, and the later SGR
stripping in normalizeMessage finds no escape character to act on. -/
theorem c6_roundTrip_bug :
    roundTripMsg c6FailingInput = "[31mred[0m".data ∧
    roundTripMsg c6FailingInput ≠ "red".data := by
  have h : roundTripMsg c6FailingInput = "[31mred[0m".data := by
    rw [roundTripMsg_eq_sanitizeLogLine]
    simp [sanitizeLogLine, stripControlSequences, removeCR, oscStrip, csiStrip, escStrip,
      c0Strip, sgrStrip, trySgr, sgrParams, sgrAfterParams, tryCsi, csiParams, csiInter,
      tryOscBody, findBel, findLastStEnd, jsTrimEnd, jsTrim, jsTrimStart, isJsWs, isStrippedC0,
      isParamChar, isInterChar, isFinalChar, escChar, belChar, c6FailingInput, List.filter,
      List.dropWhile]
  refine ⟨h, ?_⟩
  rw [h]; decide

/-! ## C3: retention-days sanitization -/

/-- C3 (counterexample): the claim says a supplied retention value
below 1 is clamped to 1; sanitizeRetentionDays maps the supplied
value 0 to the default 7, not to 1. -/
theorem c3_counterexample :
    sanitizeRetentionDays (some (JSNum.finite 0)) = 7 ∧
    sanitizeRetentionDays (some (JSNum.finite 0)) ≠ 1 := by
  constructor <;> norm_num [sanitizeRetentionDays, defaultRetentionDays]

/-- C3 (amended): the effective retention always lies in 1..365; it is
the default 7 when no value is supplied or the value is not finite; a
finite value whose floor is below 1 also falls back to the default 7
(not to 1); a finite value whose floor is at least 1 is floored and
capped at 365. -/
theorem c3_retention_sanitized (v : Option JSNum) :
    (1 ≤ sanitizeRetentionDays v ∧ sanitizeRetentionDays v ≤ 365) ∧
    (v = none → sanitizeRetentionDays v = defaultRetentionDays) ∧
    (v = some JSNum.nan ∨ v = some JSNum.posInf ∨ v = some JSNum.negInf →
      sanitizeRetentionDays v = defaultRetentionDays) ∧
    (∀ q : ℚ, v = some (JSNum.finite q) → Int.floor q < 1 →
      sanitizeRetentionDays v = defaultRetentionDays) ∧
    (∀ q : ℚ, v = some (JSNum.finite q) → 1 ≤ Int.floor q →
      sanitizeRetentionDays v = min (Int.floor q) 365) := by
  refine ⟨?_, ?_, ?_, ?_, ?_⟩
  · match v with
    | none => simp [sanitizeRetentionDays, defaultRetentionDays]
    | some JSNum.nan => simp [sanitizeRetentionDays, defaultRetentionDays]
    | some JSNum.posInf => simp [sanitizeRetentionDays, defaultRetentionDays]
    | some JSNum.negInf => simp [sanitizeRetentionDays, defaultRetentionDays]
    | some (JSNum.finite q) =>
      simp only [sanitizeRetentionDays, defaultRetentionDays]
      by_cases h : Int.floor q < 1
      · simp [h]
      · rw [if_neg h]
        constructor
        · exact le_min (by omega) (by omega)
        · exact min_le_right _ _
  · intro h
    subst h
    rfl
  · intro h
    rcases h with h | h | h <;> subst h <;> rfl
  · intro q hq h
    subst hq
    simp [sanitizeRetentionDays, h]
  · intro q hq h
    subst hq
    simp only [sanitizeRetentionDays]
    rw [if_neg (by omega)]

/-- C3 witness: a finite value of 400 is capped at 365, via the
amended theorem. -/
theorem c3_witness : sanitizeRetentionDays (some (JSNum.finite 400)) = 365 := by
  have h := (c3_retention_sanitized (some (JSNum.finite 400))).2.2.2.2 400 rfl
    (by norm_num)
  rw [h]
  norm_num

/-! ## C5: log level classification -/

/-- C5: resolveLogLevel classifies stderr as error always; stdout as
error when the externally supplied error-keyword predicate matches,
else warn when the fixed advisory set (warn, warning, retry,
deprecated, slow, throttle) matches with word boundaries, else info; in
particular the blank placeholder with no error-keyword match is info. -/
theorem c5_resolveLogLevel (p : Option (List Char → Bool)) (m : List Char) :
    resolveLogLevel p StreamType.stderr m = ServiceLogLevel.error ∧
    (errMatches p m = true →
      resolveLogLevel p StreamType.stdout m = ServiceLogLevel.error) ∧
    (errMatches p m = false → warnKeywordsTest m = true →
      resolveLogLevel p StreamType.stdout m = ServiceLogLevel.warn) ∧
    (errMatches p m = false → warnKeywordsTest m = false →
      resolveLogLevel p StreamType.stdout m = ServiceLogLevel.info) ∧
    (errMatches p "(blank)".data = false →
      resolveLogLevel p StreamType.stdout "(blank)".data = ServiceLogLevel.info) := by
  refine ⟨rfl, ?_, ?_, ?_, ?_⟩
  · intro h
    simp [resolveLogLevel, h]
  · intro h hw
    simp [resolveLogLevel, h, hw]
  · intro h hw
    simp [resolveLogLevel, h, hw]
  · intro h
    have hw : warnKeywordsTest "(blank)".data = false := by decide
    simp [resolveLogLevel, h, hw]

/-- C5 witness: stderr is error, a stdout retry line is warn, and the
blank placeholder is info, with no error pattern installed. -/
theorem c5_witness :
    resolveLogLevel none StreamType.stderr "x".data = ServiceLogLevel.error ∧
    resolveLogLevel none StreamType.stdout "please retry now".data = ServiceLogLevel.warn ∧
    resolveLogLevel none StreamType.stdout "(blank)".data = ServiceLogLevel.info :=
  ⟨(c5_resolveLogLevel none "x".data).1,
    (c5_resolveLogLevel none "please retry now".data).2.2.1 rfl (by decide),
    (c5_resolveLogLevel none "(blank)".data).2.2.2.2 rfl⟩

/-! ## C4: retention pruning -/

/-- C4: on the first cleanup run for a (service, day) pair (key not in
the visited set) the key is recorded; with the directory present,
exactly the well-formed daily files whose UTC day difference from today
is at least the retention window are deleted; names that do not parse
are never deleted; and any later run for the same pair deletes
nothing. -/
theorem c4_cleanup_retention (root : String) (state : List String) (dirExists : Bool)
    (files : List DirEntry) (service day : String) (retention : Int)
    (hnodup : (files.map DirEntry.name).Nodup)
    (hkey : state.contains (cleanupKey root service day) = false) :
    (cleanupOldServiceLogFiles root state dirExists files service day retention).1
        = cleanupKey root service day :: state ∧
    (dirExists = true → ∀ f ∈ files,
      (f.name ∈ (cleanupOldServiceLogFiles root state dirExists files service day retention).2 ↔
        (f.isFile = true ∧ ∃ d fd td,
          extractDayFromFileName f.name service = some d ∧
          parseDayToUtcDate d = some fd ∧
          parseDayToUtcDate day = some td ∧
          retention ≤ td - fd))) ∧
    (∀ f ∈ files, extractDayFromFileName f.name service = none →
      f.name ∉ (cleanupOldServiceLogFiles root state dirExists files service day retention).2) ∧
    (∀ state2, state2.contains (cleanupKey root service day) = true →
      cleanupOldServiceLogFiles root state2 dirExists files service day retention
        = (state2, [])) := by
  have hprune : ∀ f : DirEntry, pruneFile service day retention f = true ↔
      (f.isFile = true ∧ ∃ d fd td,
        extractDayFromFileName f.name service = some d ∧
        parseDayToUtcDate d = some fd ∧
        parseDayToUtcDate day = some td ∧
        retention ≤ td - fd) := by
    intro f
    rcases hx : extractDayFromFileName f.name service with _ | d
    · simp [pruneFile, hx]
    · rcases hfd : parseDayToUtcDate d with _ | fd
      · simp [pruneFile, hx, hfd]
      · rcases htd : parseDayToUtcDate day with _ | td
        · simp [pruneFile, hx, hfd, htd]
        · simp [pruneFile, hx, hfd, htd]
  have hmem : ∀ f ∈ files,
      (f.name ∈ (files.filter (pruneFile service day retention)).map DirEntry.name ↔
        pruneFile service day retention f = true) := by
    intro f hf
    constructor
    · intro h
      rw [List.mem_map] at h
      obtain ⟨g, hg, hname⟩ := h
      rw [List.mem_filter] at hg
      have : g = f := List.inj_on_of_nodup_map hnodup hg.1 hf hname
      rw [← this]
      exact hg.2
    · intro h
      exact List.mem_map.mpr ⟨f, List.mem_filter.mpr ⟨hf, h⟩, rfl⟩
  have hkey2 : cleanupKey root service day ∉ state := by simpa using hkey
  refine ⟨?_, ?_, ?_, ?_⟩
  · cases dirExists <;> simp [cleanupOldServiceLogFiles, hkey2]
  · intro hdir f hf
    subst hdir
    rw [show (cleanupOldServiceLogFiles root state true files service day retention).2
        = (files.filter (pruneFile service day retention)).map DirEntry.name by
      simp [cleanupOldServiceLogFiles, hkey2]]
    exact (hmem f hf).trans (hprune f)
  · intro f hf hx
    cases dirExists with
    | false =>
      rw [show (cleanupOldServiceLogFiles root state false files service day retention).2
          = [] by simp [cleanupOldServiceLogFiles, hkey2]]
      exact List.not_mem_nil f.name
    | true =>
      rw [show (cleanupOldServiceLogFiles root state true files service day retention).2
          = (files.filter (pruneFile service day retention)).map DirEntry.name by
        simp [cleanupOldServiceLogFiles, hkey2]]
      intro hmem2
      obtain ⟨-, d, fd, td, hd, -⟩ := (hprune f).mp ((hmem f hf).mp hmem2)
      rw [hx] at hd
      exact absurd hd (by simp)
  · intro state2 h2
    have h3 : cleanupKey root service day ∈ state2 := by simpa using h2
    simp [cleanupOldServiceLogFiles, h3]

/-- C4 witness: with retention 7 on day 2026-02-21, the 9-day-old file
is pruned, the 5-day-old file and a non-matching name are kept, via the
main theorem at a concrete directory. -/
theorem c4_witness :
    ("api-2026-02-12.txt" ∈ (cleanupOldServiceLogFiles "r" [] true
      [⟨"api-2026-02-12.txt", true⟩, ⟨"api-2026-02-16.txt", true⟩, ⟨"notes.txt", true⟩]
      "api" "2026-02-21" 7).2) ∧
    ("api-2026-02-16.txt" ∉ (cleanupOldServiceLogFiles "r" [] true
      [⟨"api-2026-02-12.txt", true⟩, ⟨"api-2026-02-16.txt", true⟩, ⟨"notes.txt", true⟩]
      "api" "2026-02-21" 7).2) ∧
    ("notes.txt" ∉ (cleanupOldServiceLogFiles "r" [] true
      [⟨"api-2026-02-12.txt", true⟩, ⟨"api-2026-02-16.txt", true⟩, ⟨"notes.txt", true⟩]
      "api" "2026-02-21" 7).2) := by
  have h := c4_cleanup_retention "r" [] true
    [⟨"api-2026-02-12.txt", true⟩, ⟨"api-2026-02-16.txt", true⟩, ⟨"notes.txt", true⟩]
    "api" "2026-02-21" 7 (by decide) (by decide)
  refine ⟨?_, ?_, ?_⟩
  · exact (h.2.1 rfl ⟨"api-2026-02-12.txt", true⟩ (by decide)).mpr
      ⟨rfl, "2026-02-12", 20496, 20505, by decide, by decide, by decide, by decide⟩
  · intro hm
    obtain ⟨-, d, fd, td, hd, hfd, htd, hle⟩ :=
      (h.2.1 rfl ⟨"api-2026-02-16.txt", true⟩ (by decide)).mp hm
    have hd2 : some "2026-02-16" = some d := by rw [← hd]; decide
    obtain rfl : d = "2026-02-16" := (Option.some_inj.mp hd2).symm
    have hfd2 : some (20500 : Int) = some fd := by rw [← hfd]; decide
    obtain rfl : fd = 20500 := (Option.some_inj.mp hfd2).symm
    have htd2 : some (20505 : Int) = some td := by rw [← htd]; decide
    obtain rfl : td = 20505 := (Option.some_inj.mp htd2).symm
    omega
  · exact h.2.2.1 ⟨"notes.txt", true⟩ (by decide) (by decide)

/-! ## C7: scroll offset clamping -/

/-- The matching-entry count of one service's log view. -/
def countService (st : ShellState) (n : ServiceName) : Nat :=
  (st.logs.filter (fun e => e.service = n)).length

lemma scrollServiceLogs_logs (st : ShellState) (n : ServiceName) (d w : Int) :
    (scrollServiceLogs st n d w).1.logs = st.logs := by
  simp only [scrollServiceLogs]
  split
  · rfl
  · rfl

lemma scrollServiceLogs_offset_bound (st : ShellState) (n : ServiceName) (d w : Int)
    (h0 : 0 ≤ st.logScrollOffset n ∧
      st.logScrollOffset n ≤ max 0 ((countService st n : Int) - w)) :
    0 ≤ (scrollServiceLogs st n d w).1.logScrollOffset n ∧
      (scrollServiceLogs st n d w).1.logScrollOffset n
        ≤ max 0 ((countService st n : Int) - w) := by
  simp only [scrollServiceLogs]
  split
  · exact h0
  · simp only [updF, if_pos rfl, countService]
    constructor
    · exact le_min (le_max_left 0 _) (le_max_left 0 _)
    · refine le_trans (min_le_right _ _) (max_le_max le_rfl ?_)
      have : w ≤ max 1 w := le_max_right 1 w
      omega

/-- C7: starting from any state whose offset for the service lies in
the valid window, every sequence of scroll-delta operations (any
deltas, including ones larger than the buffer) leaves the offset within
0 to max 0 (matching entries minus window size). -/
theorem c7_scroll_offset_clamped (st : ShellState) (n : ServiceName) (w : Int)
    (ops : List Int)
    (h0 : 0 ≤ st.logScrollOffset n ∧
      st.logScrollOffset n ≤ max 0 ((countService st n : Int) - w)) :
    0 ≤ (ops.foldl (fun s d => (scrollServiceLogs s n d w).1) st).logScrollOffset n ∧
      (ops.foldl (fun s d => (scrollServiceLogs s n d w).1) st).logScrollOffset n
        ≤ max 0 ((countService
            (ops.foldl (fun s d => (scrollServiceLogs s n d w).1) st) n : Int) - w) := by
  induction ops generalizing st with
  | nil => exact h0
  | cons d rest ih =>
    have hstep := scrollServiceLogs_offset_bound st n d w h0
    have hcount : countService (scrollServiceLogs st n d w).1 n = countService st n := by
      unfold countService
      rw [scrollServiceLogs_logs]
    rw [List.foldl_cons]
    exact ih (scrollServiceLogs st n d w).1 ⟨hstep.1, by rw [hcount]; exact hstep.2⟩

/-- C7 witness: three entries, window 1, deltas far beyond the buffer,
via the main theorem at a concrete state. -/
theorem c7_witness :
    0 ≤ (([100, -50, 7] : List Int).foldl
        (fun s d => (scrollServiceLogs s ServiceName.api d 1).1)
        { createShellState with logs :=
            [⟨ServiceName.api, StreamType.stdout, "a".data, 0⟩,
              ⟨ServiceName.api, StreamType.stdout, "b".data, 1⟩,
              ⟨ServiceName.api, StreamType.stderr, "c".data, 2⟩] }).logScrollOffset
        ServiceName.api ∧
      (([100, -50, 7] : List Int).foldl
        (fun s d => (scrollServiceLogs s ServiceName.api d 1).1)
        { createShellState with logs :=
            [⟨ServiceName.api, StreamType.stdout, "a".data, 0⟩,
              ⟨ServiceName.api, StreamType.stdout, "b".data, 1⟩,
              ⟨ServiceName.api, StreamType.stderr, "c".data, 2⟩] }).logScrollOffset
        ServiceName.api
        ≤ max 0 ((countService (([100, -50, 7] : List Int).foldl
            (fun s d => (scrollServiceLogs s ServiceName.api d 1).1)
            { createShellState with logs :=
                [⟨ServiceName.api, StreamType.stdout, "a".data, 0⟩,
                  ⟨ServiceName.api, StreamType.stdout, "b".data, 1⟩,
                  ⟨ServiceName.api, StreamType.stderr, "c".data, 2⟩] }) ServiceName.api : Int)
            - 1) :=
  c7_scroll_offset_clamped _ ServiceName.api 1 [100, -50, 7] (by constructor <;> decide)

/-! ## C8: offset stability under new entries -/

/-- C8: adding a log entry increments the entry's service's scroll
offset by exactly one when it is nonzero, keeps it at zero when it is
zero, and leaves every other service's offset unchanged. -/
theorem c8_addLog_offsets (st : ShellState) (e : ServiceLogEntry) :
    (st.logScrollOffset e.service > 0 →
      (addLog st e).logScrollOffset e.service = st.logScrollOffset e.service + 1) ∧
    (st.logScrollOffset e.service = 0 →
      (addLog st e).logScrollOffset e.service = 0) ∧
    (∀ t, t ≠ e.service → (addLog st e).logScrollOffset t = st.logScrollOffset t) := by
  refine ⟨?_, ?_, ?_⟩
  · intro h
    simp [addLog, h, updF]
  · intro h
    simp [addLog, h, updF]
  · intro t ht
    by_cases h : st.logScrollOffset e.service > 0
    · simp [addLog, h, updF, ht]
    · simp [addLog, h, updF]

/-- C8 witness: with the api offset at 2, an api entry moves it to 3
and sasa's offset stays untouched, via the main theorem. -/
theorem c8_witness :
    (addLog { createShellState with logScrollOffset :=
        (updF createShellState.logScrollOffset ServiceName.api 2) }
      ⟨ServiceName.api, StreamType.stdout, "x".data, 5⟩).logScrollOffset ServiceName.api = 3 ∧
    (addLog { createShellState with logScrollOffset :=
        (updF createShellState.logScrollOffset ServiceName.api 2) }
      ⟨ServiceName.api, StreamType.stdout, "x".data, 5⟩).logScrollOffset ServiceName.sasa = 0 := by
  constructor
  · have h := (c8_addLog_offsets { createShellState with logScrollOffset :=
      (updF createShellState.logScrollOffset ServiceName.api 2) }
      ⟨ServiceName.api, StreamType.stdout, "x".data, 5⟩).1 (by decide)
    rw [h]
    decide
  · have h := (c8_addLog_offsets { createShellState with logScrollOffset :=
      (updF createShellState.logScrollOffset ServiceName.api 2) }
      ⟨ServiceName.api, StreamType.stdout, "x".data, 5⟩).2.2 ServiceName.sasa (by decide)
    rw [h]
    decide

/-! ## Substring containment lemmas -/

lemma isPreCL_append (l t : List Char) : isPreCL l (l ++ t) = true := by
  induction l with
  | nil => rfl
  | cons c rest ih => simp [isPreCL, ih]

lemma containsCL_nil_pat (hay : List Char) : containsCL [] hay = true := by
  cases hay <;> simp [containsCL, isPreCL, List.isEmpty]

lemma containsCL_mid (pat pre post : List Char) :
    containsCL pat (pre ++ (pat ++ post)) = true := by
  induction pre with
  | nil =>
    simp only [List.nil_append]
    cases hp : pat with
    | nil => exact containsCL_nil_pat post
    | cons c rest =>
      rw [← hp]
      cases hpp : pat ++ post with
      | nil =>
        rw [hp] at hpp
        simp at hpp
      | cons a t =>
        rw [containsCL, ← hpp, isPreCL_append]
        rfl
  | cons a pre ih =>
    simp only [List.cons_append, containsCL]
    rw [show pre.append (pat ++ post) = pre ++ (pat ++ post) from rfl, ih]
    simp

/-! ## C2: adoption by working-directory match -/

/-- C2 (counterexample): a process table whose only row is the
supervisor's own process (pid 42) with a command line containing the
service working directory.  The row matches the adoption heuristic and
hydrateRunningServices records an external RunningService with exactly
that pid — the supervisor's own process is not excluded. -/
theorem c2_counterexample :
    containsCL (normalizePathForMatch "/srv/app".data)
        (normalizePathForMatch "node /srv/app/server.js".data) = true ∧
    findRunningProcessByCwd [⟨42, "node /srv/app/server.js".data⟩]
        ⟨"node", "/srv/app".data, none⟩ = some 42 ∧
    (hydrateRunningServices [⟨42, "node /srv/app/server.js".data⟩] (fun _ => none)
        (fun _ => ⟨"node", "/srv/app".data, none⟩) createShellState).running ServiceName.api
      = some { pid := JSNum.finite 42, external := true, hasChild := false } := by
  refine ⟨by decide, by decide, ?_⟩
  decide

/-- The first-match characterization of List.find?: it returns an
element exactly when the list splits into a prefix of non-matching
elements followed by that (matching) element. -/
lemma find?_eq_some_first {α : Type} (p : α → Bool) (l : List α) (a : α) :
    l.find? p = some a ↔
      ∃ pre post, l = pre ++ a :: post ∧ p a = true ∧ ∀ x ∈ pre, p x = false := by
  induction l with
  | nil =>
    simp only [List.find?]
    constructor
    · intro h
      exact absurd h (by simp)
    · rintro ⟨pre, post, hl, -, -⟩
      exact absurd hl (by simp)
  | cons c rest ih =>
    by_cases hc : p c = true
    · rw [List.find?_cons_of_pos _ hc]
      constructor
      · intro h
        obtain rfl : c = a := by injection h
        exact ⟨[], rest, rfl, hc, by simp⟩
      · rintro ⟨pre, post, hl, hpa, hpre⟩
        cases pre with
        | nil =>
          simp only [List.nil_append, List.cons.injEq] at hl
          rw [hl.1]
        | cons b pre2 =>
          simp only [List.cons_append, List.cons.injEq] at hl
          have hb : p b = false := hpre b (List.mem_cons_self b pre2)
          rw [← hl.1] at hb
          rw [hc] at hb
          exact absurd hb (by simp)
    · rw [List.find?_cons_of_neg _ hc, ih]
      constructor
      · rintro ⟨pre, post, hl, hpa, hpre⟩
        refine ⟨c :: pre, post, by rw [hl]; rfl, hpa, ?_⟩
        intro x hx
        rcases List.mem_cons.mp hx with rfl | hx2
        · exact Bool.not_eq_true _ ▸ (by simpa using hc)
        · exact hpre x hx2
      · rintro ⟨pre, post, hl, hpa, hpre⟩
        cases pre with
        | nil =>
          simp only [List.nil_append, List.cons.injEq] at hl
          rw [hl.1] at hc
          exact absurd hpa hc
        | cons b pre2 =>
          simp only [List.cons_append, List.cons.injEq] at hl
          refine ⟨pre2, post, hl.2, hpa, ?_⟩
          intro x hx
          exact hpre x (List.mem_cons_of_mem b hx)

/-- C2 (amended): full characterization of the adoption lookup for an
ordinary (non-container) service.  findRunningProcessByCwd returns
some pid exactly when the process table splits into a prefix of rows
whose normalized command lines do not contain the service's normalized
working directory, followed by a row that does and whose pid is the
result — the first matching row is selected; and it returns none
exactly when no row at all matches — so no matching row, in particular
not one carrying the supervisor's own pid, is ever excluded from
adoption. -/
theorem c2_adoption_first_match (procTable : List ProcessSnapshot)
    (svc : ServiceConfig) :
    (∀ pid : Int, findRunningProcessByCwd procTable svc = some pid ↔
      ∃ pre item post, procTable = pre ++ item :: post ∧
        containsCL (normalizePathForMatch svc.cwd)
          (normalizePathForMatch item.commandLine) = true ∧
        (∀ x ∈ pre, containsCL (normalizePathForMatch svc.cwd)
          (normalizePathForMatch x.commandLine) = false) ∧
        pid = item.pid) ∧
    (findRunningProcessByCwd procTable svc = none ↔
      ∀ item ∈ procTable, containsCL (normalizePathForMatch svc.cwd)
        (normalizePathForMatch item.commandLine) = false) := by
  by_cases he : procTable.isEmpty = true
  · have hnil : procTable = [] := List.isEmpty_iff.mp he
    subst hnil
    constructor
    · intro pid
      constructor
      · intro h
        rw [findRunningProcessByCwd] at h
        exact absurd h (by simp)
      · rintro ⟨pre, item, post, hl, -⟩
        exact absurd hl (by simp)
    · constructor
      · intro _ item hi
        exact absurd hi (by simp)
      · intro _
        rfl
  · have hfind : findRunningProcessByCwd procTable svc
        = (procTable.find? fun item =>
            containsCL (normalizePathForMatch svc.cwd)
              (normalizePathForMatch item.commandLine)).map ProcessSnapshot.pid := by
      rw [findRunningProcessByCwd, if_neg he]
    constructor
    · intro pid
      rw [hfind, Option.map_eq_some']
      constructor
      · rintro ⟨item, hf, hpid⟩
        obtain ⟨pre, post, hl, hpa, hpre⟩ := (find?_eq_some_first _ _ _).mp hf
        exact ⟨pre, item, post, hl, hpa, hpre, hpid.symm⟩
      · rintro ⟨pre, item, post, hl, hpa, hpre, hpid⟩
        exact ⟨item, (find?_eq_some_first _ _ _).mpr ⟨pre, post, hl, hpa, hpre⟩,
          hpid.symm⟩
    · rw [hfind, Option.map_eq_none', List.find?_eq_none]
      constructor
      · intro h item hi
        have := h item hi
        simpa using this
      · intro h item hi
        simp [h item hi]

/-- C2 witness for the amended theorem: in a two-row table whose first
row does not match, the lookup selects the second, matching row and
reports its pid, via the characterization at a concrete split. -/
theorem c2_witness :
    findRunningProcessByCwd
      [⟨3, "ls /tmp".data⟩, ⟨7, "bash /x/y/run.sh".data⟩]
      ⟨"bash", "/x/y".data, none⟩ = some 7 :=
  ((c2_adoption_first_match
      [⟨3, "ls /tmp".data⟩, ⟨7, "bash /x/y/run.sh".data⟩]
      ⟨"bash", "/x/y".data, none⟩).1 7).mpr
    ⟨[⟨3, "ls /tmp".data⟩], ⟨7, "bash /x/y/run.sh".data⟩, [], rfl,
      by decide, by decide, rfl⟩

lemma isPreCL_extend (p t l : List Char) (h : isPreCL p t = true) :
    isPreCL p (t ++ l) = true := by
  induction p generalizing t with
  | nil => rfl
  | cons c cs ih =>
    cases t with
    | nil => exact absurd h (by simp [isPreCL])
    | cons a t =>
      rw [isPreCL, Bool.and_eq_true] at h
      simp only [List.cons_append, isPreCL, h.1, List.append_eq, ih t h.2, Bool.and_self]

lemma containsCL_append_left (pat l t : List Char) (h : containsCL pat t = true) :
    containsCL pat (l ++ t) = true := by
  induction l with
  | nil => exact h
  | cons c cs ih => simp only [List.cons_append, containsCL, List.append_eq, ih, Bool.or_true]

lemma containsCL_append_right (pat t l : List Char) (h : containsCL pat t = true) :
    containsCL pat (t ++ l) = true := by
  induction t with
  | nil =>
    rw [containsCL] at h
    have : pat = [] := by
      cases pat
      · rfl
      · exact absurd h (by simp [List.isEmpty])
    rw [this, List.nil_append]
    exact containsCL_nil_pat l
  | cons c cs ih =>
    rw [containsCL, Bool.or_eq_true] at h
    rcases h with h | h
    · simp only [List.cons_append, containsCL, List.append_eq]
      rw [show c :: (cs ++ l) = (c :: cs) ++ l from rfl, isPreCL_extend pat (c :: cs) l h]
      simp
    · simp only [List.cons_append, containsCL, List.append_eq, ih h, Bool.or_true]

/-! ## C1: start on an existing entry -/

/-- C1 (counterexample): an existing external entry for a service that
is not container-backed is not evicted: the start call fails with the
already-running message, spawns nothing, and the external record stays
in the registry — contradicting the claim that any external entry is
evicted and a fresh managed start proceeds. -/
theorem c1_counterexample :
    (startServiceInBackground ⟨true, "", ⟨none, some 10⟩⟩ ServiceName.api
        ⟨"npm", "/srv/app".data, none⟩
        { createShellState with running := (updF createShellState.running ServiceName.api
            (some { pid := JSNum.finite 99, external := true, hasChild := false })) }).ok
      = false ∧
    (startServiceInBackground ⟨true, "", ⟨none, some 10⟩⟩ ServiceName.api
        ⟨"npm", "/srv/app".data, none⟩
        { createShellState with running := (updF createShellState.running ServiceName.api
            (some { pid := JSNum.finite 99, external := true, hasChild := false })) }).spawned
      = false ∧
    (startServiceInBackground ⟨true, "", ⟨none, some 10⟩⟩ ServiceName.api
        ⟨"npm", "/srv/app".data, none⟩
        { createShellState with running := (updF createShellState.running ServiceName.api
            (some { pid := JSNum.finite 99, external := true, hasChild := false })) }).state.running
        ServiceName.api
      = some { pid := JSNum.finite 99, external := true, hasChild := false } := by
  refine ⟨rfl, rfl, ?_⟩
  decide

/-- C1 (amended): on a start call with an existing RunningService
entry: a managed entry always fails with a message containing
"already running", spawns nothing and leaves the registry untouched;
an external entry of a service that is not container-backed is treated
the same way; an external entry of a container-backed service is
evicted — the call behaves as a fresh start on the registry without
the entry — and on spawn success a managed entry is registered. -/
theorem c1_start_existing (env : StartEnv) (name : ServiceName) (svc : ServiceConfig)
    (st : ShellState) (existing : BackgroundService)
    (h : st.running name = some existing) :
    (existing.external = false →
      (startServiceInBackground env name svc st).ok = false ∧
      containsCL "already running".data
        (startServiceInBackground env name svc st).message.data = true ∧
      (startServiceInBackground env name svc st).spawned = false ∧
      (startServiceInBackground env name svc st).state = st) ∧
    (existing.external = true → svc.dockerContainerId = none →
      (startServiceInBackground env name svc st).ok = false ∧
      containsCL "already running".data
        (startServiceInBackground env name svc st).message.data = true ∧
      (startServiceInBackground env name svc st).spawned = false ∧
      (startServiceInBackground env name svc st).state = st) ∧
    (existing.external = true → svc.dockerContainerId.isSome = true →
      (startServiceInBackground env name svc st
        = startFresh env name svc { st with running := updF st.running name none }) ∧
      (env.ensureDockerOk = true → env.spawn.err = none →
        ∀ p : Int, env.spawn.pid = some p → p ≠ 0 →
          (startServiceInBackground env name svc st).ok = true ∧
          (startServiceInBackground env name svc st).spawned = true ∧
          (startServiceInBackground env name svc st).state.running name
            = some { pid := JSNum.finite p, external := false, hasChild := true })) := by
  have hmsg : ∀ pidStr : String,
      containsCL "already running".data
        ((serviceNameStr name ++ " already running (" ++ pidStr ++ ")").data) = true := by
    intro pidStr
    have h1 : (serviceNameStr name ++ " already running (" ++ pidStr ++ ")").data
        = (((serviceNameStr name).data ++ " already running (".data) ++ pidStr.data)
            ++ ")".data := by
      simp [String.data_append]
    rw [h1]
    refine containsCL_append_right _ _ _ ?_
    refine containsCL_append_right _ _ _ ?_
    refine containsCL_append_left _ _ _ ?_
    decide
  refine ⟨?_, ?_, ?_⟩
  · intro hext
    have heq : startServiceInBackground env name svc st
        = { state := st, ok := false
            message := serviceNameStr name ++ " already running (" ++
              jsNumStr existing.pid ++ ")"
            spawned := false } := by
      unfold startServiceInBackground
      rw [h]
      simp [hext]
    rw [heq]
    exact ⟨rfl, hmsg _, rfl, rfl⟩
  · intro hext hdock
    have heq : startServiceInBackground env name svc st
        = { state := st, ok := false
            message := serviceNameStr name ++ " already running (" ++
              jsNumStr existing.pid ++ ")"
            spawned := false } := by
      unfold startServiceInBackground
      rw [h]
      simp [hext, hdock]
    rw [heq]
    exact ⟨rfl, hmsg _, rfl, rfl⟩
  · intro hext hdock
    have heq : startServiceInBackground env name svc st
        = startFresh env name svc { st with running := updF st.running name none } := by
      unfold startServiceInBackground
      rw [h]
      simp [hext, hdock]
    refine ⟨heq, ?_⟩
    intro hok herr p hp hp0
    rw [heq]
    unfold startFresh
    simp only [hok, Bool.not_true, Bool.and_false, Bool.false_eq_true, if_false, ite_false,
      herr, hp]
    rw [if_neg hp0]
    refine ⟨rfl, rfl, ?_⟩
    simp [updF]

/-- C1 witness: a managed api entry makes the start call fail without a
spawn and with the registry intact, via the amended theorem. -/
theorem c1_witness :
    (startServiceInBackground ⟨true, "", ⟨none, some 10⟩⟩ ServiceName.api
        ⟨"npm", "/srv/app".data, none⟩
        { createShellState with running := (updF createShellState.running ServiceName.api
            (some { pid := JSNum.finite 5, external := false, hasChild := true })) }).ok
      = false ∧
    (startServiceInBackground ⟨true, "", ⟨none, some 10⟩⟩ ServiceName.api
        ⟨"npm", "/srv/app".data, none⟩
        { createShellState with running := (updF createShellState.running ServiceName.api
            (some { pid := JSNum.finite 5, external := false, hasChild := true })) }).spawned
      = false := by
  have h := c1_start_existing ⟨true, "", ⟨none, some 10⟩⟩ ServiceName.api
    ⟨"npm", "/srv/app".data, none⟩
    { createShellState with running := (updF createShellState.running ServiceName.api
        (some { pid := JSNum.finite 5, external := false, hasChild := true })) }
    { pid := JSNum.finite 5, external := false, hasChild := true }
    (by decide) |>.1 rfl
  exact ⟨h.1, h.2.2.1⟩

/-! ## C9: the all target attempts every service and aggregates -/

lemma runStarts_names (env : ServiceName → StartEnv)
    (services : ServiceName → ServiceConfig) (ts : List ServiceName) (st : ShellState) :
    (runStarts env services ts st).2.map (fun r => r.1) = ts := by
  induction ts generalizing st with
  | nil => rfl
  | cons n rest ih => simp [runStarts, ih]

lemma runStops_names (env : ServiceName → StopEnv)
    (services : ServiceName → ServiceConfig) (ts : List ServiceName) (st : ShellState) :
    (runStops env services ts st).2.map (fun r => r.1) = ts := by
  induction ts generalizing st with
  | nil => rfl
  | cons n rest ih => simp [runStops, ih]

/-- C9: with the all target, both startBackground and stopBackground
attempt every configured service in order (the per-service attempt list
names exactly serviceOrder, whatever the outcomes — no short-circuit),
and the exit code is 1 exactly when some attempt failed and 0 exactly
when all succeeded. -/
theorem c9_all_target_aggregate (envS : ServiceName → StartEnv)
    (envT : ServiceName → StopEnv) (services : ServiceName → ServiceConfig)
    (st st' : ShellState) :
    ((runStarts envS services serviceOrder st).2.map (fun r => r.1) = serviceOrder) ∧
    ((startBackground RunTarget.allServices envS services st).2 = 1 ↔
      ∃ r ∈ (runStarts envS services serviceOrder st).2, r.2.1 = false) ∧
    ((startBackground RunTarget.allServices envS services st).2 = 0 ↔
      ∀ r ∈ (runStarts envS services serviceOrder st).2, r.2.1 = true) ∧
    ((runStops envT services serviceOrder st').2.map (fun r => r.1) = serviceOrder) ∧
    ((stopBackground RunTarget.allServices envT services st').2 = 1 ↔
      ∃ r ∈ (runStops envT services serviceOrder st').2, r.2.1 = false) ∧
    ((stopBackground RunTarget.allServices envT services st').2 = 0 ↔
      ∀ r ∈ (runStops envT services serviceOrder st').2, r.2.1 = true) := by
  have hcode : ∀ (l : List (ServiceName × Bool × String)),
      ((if l.any (fun r => r.2.1 = false) then 1 else 0) = 1 ↔
        ∃ r ∈ l, r.2.1 = false) ∧
      ((if l.any (fun r => r.2.1 = false) then 1 else 0) = 0 ↔
        ∀ r ∈ l, r.2.1 = true) := by
    intro l
    by_cases h : l.any (fun r => r.2.1 = false) = true
    · rw [if_pos h]
      rw [List.any_eq_true] at h
      obtain ⟨r, hr, hfalse⟩ := h
      constructor
      · exact ⟨fun _ => ⟨r, hr, by simpa using hfalse⟩, fun _ => rfl⟩
      · refine ⟨fun habs => absurd habs (by norm_num), fun hall => ?_⟩
        have := hall r hr
        simp only [decide_eq_true_eq] at hfalse
        rw [hfalse] at this
        exact absurd this (by norm_num)
    · rw [if_neg h]
      rw [List.any_eq_true] at h
      push_neg at h
      constructor
      · constructor
        · intro habs
          exact absurd habs (by norm_num)
        · intro habs
          obtain ⟨r, hr, hfalse⟩ := habs
          exact absurd (by simpa using hfalse) (h r hr)
      · refine ⟨fun _ r hr => ?_, fun _ => rfl⟩
        have := h r hr
        simp only [ne_eq, decide_eq_true_eq] at this
        cases hb : r.2.1
        · exact absurd hb this
        · rfl
  refine ⟨runStarts_names envS services serviceOrder st, ?_, ?_,
    runStops_names envT services serviceOrder st', ?_, ?_⟩
  · exact (hcode (runStarts envS services serviceOrder st).2).1
  · exact (hcode (runStarts envS services serviceOrder st).2).2
  · exact (hcode (runStops envT services serviceOrder st').2).1
  · exact (hcode (runStops envT services serviceOrder st').2).2

/-- C9 witness: with every spawn failing, start all reports exit code
1, via the aggregate theorem and a concrete failing element. -/
theorem c9_witness :
    (startBackground RunTarget.allServices (fun _ => ⟨true, "", ⟨some "boom", none⟩⟩)
      (fun _ => ⟨"npm", "/w".data, none⟩) createShellState).2 = 1 :=
  ((c9_all_target_aggregate (fun _ => ⟨true, "", ⟨some "boom", none⟩⟩)
      (fun _ => ⟨.posix, true, true, true, ""⟩)
      (fun _ => ⟨"npm", "/w".data, none⟩) createShellState createShellState).2.1).mpr
    (by decide)

/-! ## C10: stopping an external entry with an invalid pid -/

/-- C10 (counterexample): for a container-backed service whose external
entry has pid 0, the stop call's returned message is the container
message, which does not contain "external process not found" (and the
call even reports success when the container stop succeeds) — the
claim's reported-message part does not hold for container-backed
services. -/
theorem c10_counterexample :
    (stopServiceInBackground ⟨Platform.posix, true, true, true, ""⟩ ServiceName.waha
        { createShellState with running := (updF createShellState.running ServiceName.waha
            (some { pid := JSNum.finite 0, external := true, hasChild := false })) }
        (some ⟨"docker", "/w".data, some "waha-container"⟩)).message
      = "waha container stopping" ∧
    containsCL "external process not found".data
      (stopServiceInBackground ⟨Platform.posix, true, true, true, ""⟩ ServiceName.waha
        { createShellState with running := (updF createShellState.running ServiceName.waha
            (some { pid := JSNum.finite 0, external := true, hasChild := false })) }
        (some ⟨"docker", "/w".data, some "waha-container"⟩)).message.data = false ∧
    (stopServiceInBackground ⟨Platform.posix, true, true, true, ""⟩ ServiceName.waha
        { createShellState with running := (updF createShellState.running ServiceName.waha
            (some { pid := JSNum.finite 0, external := true, hasChild := false })) }
        (some ⟨"docker", "/w".data, some "waha-container"⟩)).ok = true := by
  refine ⟨rfl, ?_, rfl⟩
  decide

/-- C10 (amended): stopping an external entry whose pid is not a finite
positive number never issues a kill or taskkill (the pid guard returns
false with no action), and the registry entry stays in place; when the
service is additionally not container-backed, the call fails and its
message contains "external process not found". -/
theorem c10_stop_bad_pid (env : StopEnv) (name : ServiceName) (st : ShellState)
    (svc : Option ServiceConfig) (r : BackgroundService)
    (hr : st.running name = some r) (hext : r.external = true)
    (hbad : jsIsFinite r.pid = false ∨ jsLeZero r.pid = true) :
    stopExternalProcessByPid env r.pid = (false, []) ∧
    (stopServiceInBackground env name st svc).kills = [] ∧
    (stopServiceInBackground env name st svc).state.running name = some r ∧
    ((match svc with | some s => s.dockerContainerId | none => none) = none →
      (stopServiceInBackground env name st svc).ok = false ∧
      containsCL "external process not found".data
        (stopServiceInBackground env name st svc).message.data = true) := by
  have hguard : (!jsIsFinite r.pid || jsLeZero r.pid) = true := by
    rcases hbad with h | h <;> simp [h]
  have hstop : stopExternalProcessByPid env r.pid = (false, []) := by
    unfold stopExternalProcessByPid
    rw [if_pos hguard]
  have hmsg : containsCL "external process not found".data
      ((serviceNameStr name ++ " external process not found").data) = true := by
    rw [show (serviceNameStr name ++ " external process not found").data
        = (serviceNameStr name).data ++ " external process not found".data from
      String.data_append _ _]
    refine containsCL_append_left _ _ _ ?_
    decide
  have hpart : stopServiceInBackground env name st svc
      = (match svc with
        | some s =>
          if s.dockerContainerId.isSome then
            if env.containerStopOk then
              { state := st, ok := true
                message := serviceNameStr name ++ " container stopping", kills := [] }
            else
              { state := st, ok := false
                message := serviceNameStr name ++ " is not running", kills := [] }
          else
            { state := st, ok := false
              message := serviceNameStr name ++ " external process not found", kills := [] }
        | none =>
          { state := st, ok := false
            message := serviceNameStr name ++ " external process not found", kills := [] }) := by
    unfold stopServiceInBackground
    rw [hr]
    simp only [hext, if_pos, hstop, Bool.false_eq_true, if_false, ite_true, ite_false]
    match svc with
    | none => rfl
    | some s =>
      by_cases hd : s.dockerContainerId.isSome
      · simp only [hd, ite_true]
        by_cases hc : env.containerStopOk
        · simp [hc]
        · simp [hc]
      · simp only [hd, Bool.false_eq_true, ite_false]
  refine ⟨hstop, ?_, ?_, ?_⟩
  · rw [hpart]
    match svc with
    | none => rfl
    | some s =>
      by_cases hd : s.dockerContainerId.isSome
      · simp only [hd, ite_true]
        by_cases hc : env.containerStopOk <;> simp [hc]
      · simp [hd]
  · rw [hpart]
    match svc with
    | none => simpa using hr
    | some s =>
      by_cases hd : s.dockerContainerId.isSome
      · simp only [hd, ite_true]
        by_cases hc : env.containerStopOk <;> simp [hc, hr]
      · simp only [hd, Bool.false_eq_true, ite_false]
        simpa using hr
  · intro hnd
    rw [hpart]
    match svc with
    | none => exact ⟨rfl, hmsg⟩
    | some s =>
      have hd : s.dockerContainerId.isSome = false := by
        simp only [show s.dockerContainerId = none from hnd, Option.isSome_none]
      simp only [hd, Bool.false_eq_true, ite_false]
      exact ⟨by simp, hmsg⟩

/-- C10 witness: an external api entry with pid NaN: no kill action,
failure with the not-found message, entry retained, via the amended
theorem. -/
theorem c10_witness :
    stopExternalProcessByPid ⟨Platform.posix, true, true, true, ""⟩ JSNum.nan
      = (false, []) ∧
    (stopServiceInBackground ⟨Platform.posix, true, true, true, ""⟩ ServiceName.api
        { createShellState with running := (updF createShellState.running ServiceName.api
            (some { pid := JSNum.nan, external := true, hasChild := false })) }
        none).kills = [] ∧
    (stopServiceInBackground ⟨Platform.posix, true, true, true, ""⟩ ServiceName.api
        { createShellState with running := (updF createShellState.running ServiceName.api
            (some { pid := JSNum.nan, external := true, hasChild := false })) }
        none).ok = false := by
  have h := c10_stop_bad_pid ⟨Platform.posix, true, true, true, ""⟩ ServiceName.api
    { createShellState with running := (updF createShellState.running ServiceName.api
        (some { pid := JSNum.nan, external := true, hasChild := false })) }
    none { pid := JSNum.nan, external := true, hasChild := false }
    (by decide) rfl (Or.inl rfl)
  exact ⟨h.1, h.2.1, (h.2.2.2 rfl).1⟩

end DevCli
